import Mathlib

/-
  Verification development for the Privacy-Jenga repository.

  The repository's UI layer (`SimplifiedJengaTower`, `GamePage`,
  `analyticsService`) is embedded directly from the TypeScript source.
  The game engine (`simplifiedGameService`) is not part of the source
  tree; its behaviour is modelled from the specification, as noted on
  each definition concerned.

  Stability is carried as a natural number: the specification requires
  an integer in [0, 100], the lower bound being enforced by the engine's
  floor-at-zero rule, which the model realises with truncated natural
  subtraction.
-/

namespace PrivacyJenga

/-- Modelled from the spec: the three difficulty tiers of the missing
engine module `simplifiedGameService` (spec section 3). -/
inductive Difficulty where
  | easy
  | medium
  | hard
deriving DecidableEq, Repr

/-- Modelled from the spec: the two kinds of catalog content
(spec section 3, `kind` of `ContentItem`). -/
inductive ContentKind where
  | tip
  | question
deriving DecidableEq, Repr

/-- Modelled from the spec: the game phases of the missing engine
(spec section 3, `GameSession.phase`). -/
inductive Phase where
  | Playing
  | Collapsed
  | Completed
deriving DecidableEq, Repr

/-- Modelled from the spec: the recoverable error taxonomy of the
missing engine (spec section 7). -/
inductive GameError where
  | UnknownBlock
  | AlreadyRemoved
  | InvalidTransition
  | GameOver
deriving DecidableEq, Repr

/-- Result wrapper used by the engine commands: either a value or a
recoverable error sentinel (spec section 7: discriminated results,
never thrown faults). -/
inductive EngineResult (α : Type) where
  | ok (value : α)
  | failure (error : GameError)
deriving DecidableEq, Repr

/-- Modelled from the spec: an immutable catalog item of the missing
engine (spec section 3, `ContentItem`); the textual fields carry no
behaviour and are omitted. -/
structure ContentItem where
  id : Nat
  kind : ContentKind
  difficulty : Difficulty
  optionCount : Nat
  correctIndex : Nat
deriving DecidableEq, Repr

/-- Modelled from the spec: one tower block of the missing engine
(spec section 3, `Block`); `worldPosition` is a rendering concern and
is omitted. -/
structure Block where
  id : Nat
  layer : Nat
  difficulty : Difficulty
  contentId : Nat
  removed : Bool
deriving DecidableEq, Repr

/-- Modelled from the spec: the result record returned by
`handleQuizAnswer` (spec section 4.4). -/
structure QuizResult where
  correct : Bool
  stabilityDelta : Int
  pointsAwarded : Nat
deriving DecidableEq, Repr

/-- Modelled from the spec: the mutable `GameSession` aggregate of the
missing engine (spec section 3).  `awaiting` carries the
`AwaitingAnswer` state of the quiz state machine (spec section 4.4). -/
structure Session where
  phase : Phase
  stability : Nat
  score : Nat
  contentShownCount : Nat
  contentAvailableCount : Nat
  currentDifficulty : Difficulty
  answerStreak : Nat
  recentOutcomes : List Bool
  achievements : List Nat
  history : List Nat
  awaiting : Option Nat
  blocks : List Block
deriving DecidableEq, Repr

/-- Modelled from the spec: the catalog size and content count
(spec section 3: exactly 54 items). -/
def catalogSize : Nat := 54

/-- Modelled from the spec: difficulty tier derived from layer banding
(spec section 3: layers 1 to 6 hard, 7 to 12 medium, 13 to 18 easy). -/
def tierOfLayer (layer : Nat) : Difficulty :=
  if layer ≤ 6 then Difficulty.hard
  else if layer ≤ 12 then Difficulty.medium
  else Difficulty.easy

/-- Modelled from the spec: the static content catalog of the missing
engine (spec sections 2 and 3); item `i` is bound to block `i`, its
tier matching the block's layer band, with a mix of tips and
questions in every band. -/
def catalogItem (i : Nat) : ContentItem :=
  { id := i
  , kind := if i % 3 = 2 then ContentKind.tip else ContentKind.question
  , difficulty := tierOfLayer (i / 3 + 1)
  , optionCount := 4
  , correctIndex := 0 }

/-- Modelled from the spec: block construction at session start
(spec section 4.1): 54 blocks in 18 layers of 3, tier by layer band,
one content item per block. -/
def initialBlock (i : Nat) : Block :=
  { id := i
  , layer := i / 3 + 1
  , difficulty := tierOfLayer (i / 3 + 1)
  , contentId := i
  , removed := false }

/-- Deterministic round-half-up of the fraction `num / den`
(spec section 4.2: penalty math rounds to the nearest integer,
half rounded up). -/
def roundHalfUp (num den : Nat) : Nat :=
  (2 * num + den) / (2 * den)

/-- Modelled from the spec: the layer-weighted incorrect-answer penalty
of the missing engine (spec section 4.2): lower layers inflict a
strictly larger deduction, computed by round-half-up from a
proportional raw weight. -/
def penaltyFor (layer : Nat) : Nat :=
  roundHalfUp (10 * (19 - layer)) 6

/-- Modelled from the spec: the correct-answer award scaled by
difficulty tier (spec section 4.4). -/
def correctAward : Difficulty → Nat
  | Difficulty.easy => 10
  | Difficulty.medium => 20
  | Difficulty.hard => 30

/-- Modelled from the spec: the fixed award for a tip reveal
(spec section 4.4). -/
def tipAward : Nat := 5

/-- Look up a block by id in the session's block list. -/
def findBlock (s : Session) (bid : Nat) : Option Block :=
  s.blocks.find? (fun b => b.id == bid)

/-- Mark the block with the given id removed, leaving the rest of the
tower untouched (spec section 4.1, `markRemoved`). -/
def markRemoved (blocks : List Block) (bid : Nat) : List Block :=
  blocks.map (fun b => if b.id == bid then { b with removed := true } else b)

/-- Modelled from the spec: the completion and collapse check run after
every resolution (spec section 4.4): stability zero forces `Collapsed`
regardless of remaining blocks; otherwise all content shown with
positive stability yields `Completed`. -/
def finishPhase (stab shown : Nat) : Phase :=
  if stab = 0 then Phase.Collapsed
  else if shown = catalogSize then Phase.Completed
  else Phase.Playing

/-- Modelled from the spec: size of the rolling performance window of
the adaptive difficulty controller (spec section 4.3). -/
def windowSize : Nat := 5

/-- Keep only the most recent `windowSize` outcomes. -/
def trimWindow (l : List Bool) : List Bool :=
  if l.length > windowSize then l.drop (l.length - windowSize) else l

/-- Modelled from the spec: one-tier escalation with ceiling hard
(spec section 4.3). -/
def escalate : Difficulty → Difficulty
  | Difficulty.easy => Difficulty.medium
  | Difficulty.medium => Difficulty.hard
  | Difficulty.hard => Difficulty.hard

/-- Modelled from the spec: one-tier de-escalation with floor easy
(spec section 4.3). -/
def deescalate : Difficulty → Difficulty
  | Difficulty.easy => Difficulty.easy
  | Difficulty.medium => Difficulty.easy
  | Difficulty.hard => Difficulty.medium

/-- Modelled from the spec: the adaptive difficulty controller
(spec section 4.3): with enough recent samples, a correct rate of at
least 80 percent escalates one tier and of at most 40 percent
de-escalates one tier; otherwise the tier is unchanged. -/
def updateDifficulty (cur : Difficulty) (outcomes : List Bool) : Difficulty :=
  if outcomes.length < 3 then cur
  else
    let c := (outcomes.filter (fun b => b)).length
    if 5 * c ≥ 4 * outcomes.length then escalate cur
    else if 5 * c ≤ 2 * outcomes.length then deescalate cur
    else cur

/-- Modelled from the spec: `initializeGame` of the missing engine
(spec sections 4.1 and 6): fresh session with stability 100, score 0,
nothing shown, phase Playing, and the fixed 54-block layout. -/
def initializeGame : Session :=
  { phase := Phase.Playing
  , stability := 100
  , score := 0
  , contentShownCount := 0
  , contentAvailableCount := catalogSize
  , currentDifficulty := Difficulty.easy
  , answerStreak := 0
  , recentOutcomes := []
  , achievements := []
  , history := []
  , awaiting := none
  , blocks := (List.range catalogSize).map initialBlock }

/-- Modelled from the spec: `handleBlockClick` of the missing engine
(spec section 4.4): rejected with `GameOver` in a terminal phase;
`UnknownBlock` and `AlreadyRemoved` leave the session unchanged;
a question transitions to `AwaitingAnswer`; a tip resolves
immediately. -/
def handleBlockClick (s : Session) (bid : Nat) :
    Session × EngineResult ContentItem :=
  match s.phase with
  | Phase.Playing =>
    match findBlock s bid with
    | none => (s, EngineResult.failure GameError.UnknownBlock)
    | some b =>
      if b.removed then (s, EngineResult.failure GameError.AlreadyRemoved)
      else
        let item := catalogItem b.contentId
        match item.kind with
        | ContentKind.question =>
            ({ s with awaiting := some bid }, EngineResult.ok item)
        | ContentKind.tip =>
            let shown := s.contentShownCount + 1
            ({ s with
                blocks := markRemoved s.blocks bid
              , contentShownCount := shown
              , score := s.score + tipAward
              , history := s.history ++ [bid]
              , awaiting := none
              , phase := finishPhase s.stability shown }
            , EngineResult.ok item)
  | _ => (s, EngineResult.failure GameError.GameOver)

/-- Modelled from the spec: `handleQuizAnswer` of the missing engine
(spec sections 4.2 and 4.4): valid only from `AwaitingAnswer` for the
matching block; a correct answer costs nothing, an incorrect answer
deducts the layer-weighted penalty with the floor at zero; the block
is removed, counters, score, streak, rolling window and history are
updated, and the completion check runs. -/
def handleQuizAnswer (s : Session) (bid idx : Nat) :
    Session × EngineResult QuizResult :=
  match s.phase with
  | Phase.Playing =>
    match findBlock s bid with
    | none => (s, EngineResult.failure GameError.UnknownBlock)
    | some b =>
      if b.removed then (s, EngineResult.failure GameError.AlreadyRemoved)
      else if s.awaiting = some bid then
        let item := catalogItem b.contentId
        let correct := idx == item.correctIndex
        let drop := if correct then 0 else min s.stability (penaltyFor b.layer)
        let stab := s.stability - drop
        let points := if correct then correctAward item.difficulty else 0
        let shown := s.contentShownCount + 1
        let outcomes := trimWindow (s.recentOutcomes ++ [correct])
        ({ s with
            blocks := markRemoved s.blocks bid
          , stability := stab
          , score := s.score + points
          , contentShownCount := shown
          , history := s.history ++ [bid]
          , answerStreak := if correct then s.answerStreak + 1 else 0
          , recentOutcomes := outcomes
          , currentDifficulty := updateDifficulty s.currentDifficulty outcomes
          , awaiting := none
          , phase := finishPhase stab shown }
        , EngineResult.ok
            { correct := correct
            , stabilityDelta := (stab : Int) - (s.stability : Int)
            , pointsAwarded := points })
      else (s, EngineResult.failure GameError.InvalidTransition)
  | _ => (s, EngineResult.failure GameError.GameOver)

/-- Modelled from the spec: `resetGame` of the missing engine
(spec section 4.6): a full wholesale replacement by a brand-new
session, never an incremental reset. -/
def resetGame (_ : Session) : Session := initializeGame

/-- Modelled from the spec: `getGameState` read-only snapshot accessor
(spec section 6). -/
def getGameState (s : Session) : Session := s

/-- Modelled from the spec: `getBlocks` read-only accessor
(spec section 6). -/
def getBlocks (s : Session) : List Block := s.blocks

/-- A command of the engine's mutating API (spec section 6). -/
inductive Cmd where
  | click (bid : Nat)
  | answer (bid idx : Nat)
  | reset
deriving DecidableEq, Repr

/-- `true` for the in-session play commands, `false` for the wholesale
session replacement `reset`. -/
def isPlay : Cmd → Bool
  | Cmd.click _ => true
  | Cmd.answer _ _ => true
  | Cmd.reset => false

/-- One step of the command API, keeping only the successor session. -/
def stepCmd (s : Session) (c : Cmd) : Session :=
  match c with
  | Cmd.click bid => (handleBlockClick s bid).1
  | Cmd.answer bid idx => (handleQuizAnswer s bid idx).1
  | Cmd.reset => resetGame s

/-- Run a sequence of commands from a session. -/
def runCmds (s : Session) : List Cmd → Session
  | [] => s
  | c :: cs => runCmds (stepCmd s c) cs

/-! UI layer, embedded from
`src/components/jenga/SimplifiedJengaTower.tsx` (part_002). -/

/-- The three advisory warning bands of the UI. -/
inductive StabilityLevel where
  | stable
  | unstable
  | critical
deriving DecidableEq, Repr

/-- Embedded from `SimplifiedJengaTower` (part_002 lines 64 to 71): the
pop-up stability classification derived from `gameState.towerStability`,
never stored. -/
def currentStabilityLevel (towerStability : Nat) : StabilityLevel :=
  if towerStability ≤ 25 ∧ 0 < towerStability then StabilityLevel.critical
  else if towerStability ≤ 50 ∧ 0 < towerStability then StabilityLevel.unstable
  else StabilityLevel.stable

/-- Embedded from `SimplifiedJengaTower` (part_002 lines 495 to 526):
the persistent warning indicator is rendered exactly when
`towerStability <= 50`. -/
def stabilityIndicatorShown (towerStability : Nat) : Bool :=
  towerStability ≤ 50

/-- Embedded from `SimplifiedJengaTower` (part_002 lines 495 to 513):
inside the indicator, `towerStability <= 25` selects the critical
styling and caption, anything else the unstable ones. -/
def stabilityIndicatorCritical (towerStability : Nat) : Bool :=
  towerStability ≤ 25

/-- Embedded from `getBlockColor` in `SimplifiedJengaTower`
(part_002 lines 115 to 127): colour by layer band, with the primary
shade when the block's difficulty matches its band. -/
def getBlockColor (layer : Nat) (difficulty : Difficulty) : Nat :=
  if layer ≤ 6 then
    if difficulty == Difficulty.hard then 0xdc2626 else 0xef4444
  else if layer ≤ 12 then
    if difficulty == Difficulty.medium then 0xd97706 else 0xf59e0b
  else
    if difficulty == Difficulty.easy then 0x059669 else 0x10b981

/-! Analytics layer, embedded from
`src/apps/web/src/services/analyticsService.ts`. -/

/-- Embedded from `analyticsService.ts` (lines 6 to 12): one tracked
analytics event. -/
structure AnalyticsEvent where
  category : String
  action : String
  label : Option String
  value : Option Nat
  timestamp : Nat
deriving DecidableEq, Repr

/-- Embedded from `AnalyticsService.storeOffline`
(`analyticsService.ts` lines 261 to 277): push the event onto the list
persisted under the `analytics_offline` key, then drop the oldest
entry once when the list exceeds 100 entries. -/
def storeOffline (events : List AnalyticsEvent) (e : AnalyticsEvent) :
    List AnalyticsEvent :=
  let pushed := events ++ [e]
  if pushed.length > 100 then pushed.drop 1 else pushed

/-! Helper lemmas about the engine model. -/

/-- A block click never changes the stability value. -/
lemma click_stability (s : Session) (bid : Nat) :
    ((handleBlockClick s bid).1).stability = s.stability := by
  unfold handleBlockClick
  split
  · split
    · rfl
    · split
      · rfl
      · dsimp only
        split
        · rfl
        · rfl
  · rfl

/-- A quiz answer never increases the stability value. -/
lemma answer_stability_le (s : Session) (bid idx : Nat) :
    ((handleQuizAnswer s bid idx).1).stability ≤ s.stability := by
  unfold handleQuizAnswer
  split
  · split
    · exact le_refl _
    · split
      · exact le_refl _
      · split
        · exact Nat.sub_le _ _
        · exact le_refl _
  · exact le_refl _

/-- Every command keeps the stability value at or below 100. -/
lemma stepCmd_stability_le (s : Session) (c : Cmd) (h : s.stability ≤ 100) :
    (stepCmd s c).stability ≤ 100 := by
  cases c with
  | click bid => rw [stepCmd, click_stability]; exact h
  | answer bid idx => exact le_trans (answer_stability_le s bid idx) h
  | reset => exact le_refl _

/-- Running any command sequence keeps the stability value at or
below 100. -/
lemma runCmds_stability_le (cs : List Cmd) (s : Session)
    (h : s.stability ≤ 100) : (runCmds s cs).stability ≤ 100 := by
  induction cs generalizing s with
  | nil => exact h
  | cons c cs ih => exact ih (stepCmd s c) (stepCmd_stability_le s c h)

/-- A rejected or non-resolving click in a non-playing phase returns
the session unchanged. -/
lemma click_fst_of_not_playing (s : Session) (bid : Nat)
    (h : s.phase ≠ Phase.Playing) : (handleBlockClick s bid).1 = s := by
  unfold handleBlockClick
  split
  · exact absurd (by assumption) h
  · rfl

/-- An answer in a non-playing phase returns the session unchanged. -/
lemma answer_fst_of_not_playing (s : Session) (bid idx : Nat)
    (h : s.phase ≠ Phase.Playing) : (handleQuizAnswer s bid idx).1 = s := by
  unfold handleQuizAnswer
  split
  · exact absurd (by assumption) h
  · rfl

/-- In a collapsed session every block click is rejected with
`GameOver` and the session is untouched. -/
lemma click_gameover (s : Session) (bid : Nat)
    (h : s.phase = Phase.Collapsed) :
    handleBlockClick s bid = (s, EngineResult.failure GameError.GameOver) := by
  unfold handleBlockClick
  rw [h]

/-- Play commands leave a session in a terminal phase untouched. -/
lemma stepCmd_of_terminal (s : Session) (c : Cmd)
    (hp : s.phase ≠ Phase.Playing) (hc : isPlay c = true) :
    stepCmd s c = s := by
  cases c with
  | click bid => exact click_fst_of_not_playing s bid hp
  | answer bid idx => exact answer_fst_of_not_playing s bid idx hp
  | reset => cases hc

/-- Sequences of play commands leave a session in a terminal phase
untouched. -/
lemma runCmds_of_terminal (ds : List Cmd) (s : Session)
    (hp : s.phase ≠ Phase.Playing) (hds : ∀ d ∈ ds, isPlay d = true) :
    runCmds s ds = s := by
  induction ds with
  | nil => rfl
  | cons d ds ih =>
      have hstep : stepCmd s d = s :=
        stepCmd_of_terminal s d hp (hds d (List.mem_cons_self d ds))
      rw [runCmds, hstep]
      exact ih fun d hd => hds d (List.mem_cons_of_mem _ hd)

/-- A playing session respecting the collapse invariant has positive
stability. -/
lemma stability_pos_of_playing (s : Session)
    (h : s.stability = 0 → s.phase = Phase.Collapsed)
    (hp : s.phase = Phase.Playing) : s.stability ≠ 0 := by
  intro h0
  have hc := h h0
  rw [hp] at hc
  cases hc

/-- A block click preserves the invariant that zero stability forces
the collapsed phase. -/
lemma click_collapse_inv (s : Session) (bid : Nat)
    (h : s.stability = 0 → s.phase = Phase.Collapsed) :
    ((handleBlockClick s bid).1).stability = 0 →
      ((handleBlockClick s bid).1).phase = Phase.Collapsed := by
  by_cases hp : s.phase = Phase.Playing
  · intro h0
    rw [click_stability] at h0
    exact absurd h0 (stability_pos_of_playing s h hp)
  · rw [click_fst_of_not_playing s bid hp]
    exact h

/-- A quiz answer preserves the invariant that zero stability forces
the collapsed phase. -/
lemma answer_collapse_inv (s : Session) (bid idx : Nat)
    (h : s.stability = 0 → s.phase = Phase.Collapsed) :
    ((handleQuizAnswer s bid idx).1).stability = 0 →
      ((handleQuizAnswer s bid idx).1).phase = Phase.Collapsed := by
  unfold handleQuizAnswer
  split
  · split
    · exact h
    · split
      · exact h
      · split
        · dsimp only
          intro h0
          simp only [finishPhase, h0]
          rfl
        · exact h
  · exact h

/-- Every command preserves the invariant that zero stability forces
the collapsed phase. -/
lemma stepCmd_collapse_inv (s : Session) (c : Cmd)
    (h : s.stability = 0 → s.phase = Phase.Collapsed) :
    (stepCmd s c).stability = 0 → (stepCmd s c).phase = Phase.Collapsed := by
  cases c with
  | click bid => exact click_collapse_inv s bid h
  | answer bid idx => exact answer_collapse_inv s bid idx h
  | reset =>
      intro h0
      simp [stepCmd, resetGame, initializeGame] at h0

/-- Running any command sequence preserves the invariant that zero
stability forces the collapsed phase. -/
lemma runCmds_collapse_inv (cs : List Cmd) (s : Session)
    (h : s.stability = 0 → s.phase = Phase.Collapsed) :
    (runCmds s cs).stability = 0 → (runCmds s cs).phase = Phase.Collapsed := by
  induction cs generalizing s with
  | nil => exact h
  | cons c cs ih => exact ih (stepCmd s c) (stepCmd_collapse_inv s c h)

/-- Unfolding `markRemoved` over a cons cell. -/
lemma markRemoved_cons (a : Block) (l : List Block) (bid : Nat) :
    markRemoved (a :: l) bid
      = (if a.id == bid then { a with removed := true } else a)
          :: markRemoved l bid := rfl

/-- Looking up a block after `markRemoved` finds the same block with
the `removed` flag set. -/
lemma find_markRemoved (l : List Block) (bid : Nat) :
    (markRemoved l bid).find? (fun b => b.id == bid)
      = (l.find? (fun b => b.id == bid)).map
          (fun b => { b with removed := true }) := by
  induction l with
  | nil => rfl
  | cons a l ih =>
      rw [markRemoved_cons]
      cases ha : (a.id == bid) with
      | true => simp [List.find?_cons, ha]
      | false => simp [List.find?_cons, ha, ih]

/-! Claim theorems. -/

/-- C1: a freshly initialized session has stability exactly 100, and
for every sequence of commands applied through the engine's command
API the stability value stays within [0, 100] (the lower bound holds
by construction, stability being carried as a natural number with the
floor-at-zero deduction rule). -/
theorem stability_bounds_invariant :
    initializeGame.stability = 100
    ∧ ∀ cs : List Cmd, (runCmds initializeGame cs).stability ≤ 100 :=
  ⟨rfl, fun cs => runCmds_stability_le cs initializeGame (by decide)⟩

/-- C2: over any sequence of in-session play commands, whenever
stability reaches 0 the phase is Collapsed, and from a collapsed
session every further `handleBlockClick` is rejected with `GameOver`
without mutating the session and no play-command sequence ever leaves
the Collapsed phase. -/
theorem collapse_is_absorbing (cs : List Cmd)
    (_hcs : ∀ c ∈ cs, isPlay c = true) :
    ((runCmds initializeGame cs).stability = 0 →
        (runCmds initializeGame cs).phase = Phase.Collapsed)
    ∧ ((runCmds initializeGame cs).phase = Phase.Collapsed →
        (∀ bid, handleBlockClick (runCmds initializeGame cs) bid
            = (runCmds initializeGame cs,
               EngineResult.failure GameError.GameOver))
        ∧ ∀ ds : List Cmd, (∀ d ∈ ds, isPlay d = true) →
            runCmds (runCmds initializeGame cs) ds
              = runCmds initializeGame cs) := by
  refine ⟨runCmds_collapse_inv cs initializeGame ?_, ?_⟩
  · intro h0
    simp [initializeGame] at h0
  · intro hc
    exact ⟨fun bid => click_gameover _ bid hc,
           fun ds hds => runCmds_of_terminal ds _
             (fun h => Phase.noConfusion (hc.symm.trans h)) hds⟩

/-- Demonstration command sequence: four incorrect hard-tier answers,
enough to zero the stability. -/
def demoCollapseCmds : List Cmd :=
  [Cmd.click 0, Cmd.answer 0 1, Cmd.click 1, Cmd.answer 1 1,
   Cmd.click 3, Cmd.answer 3 1, Cmd.click 4, Cmd.answer 4 1]

/-- Witness for C2: the demonstration sequence collapses the tower and
a further click on a remaining block is rejected with `GameOver`. -/
theorem collapse_is_absorbing_witness :
    (runCmds initializeGame demoCollapseCmds).phase = Phase.Collapsed
    ∧ handleBlockClick (runCmds initializeGame demoCollapseCmds) 2
        = (runCmds initializeGame demoCollapseCmds,
           EngineResult.failure GameError.GameOver) := by
  have h := collapse_is_absorbing demoCollapseCmds (by decide)
  have h0 : (runCmds initializeGame demoCollapseCmds).stability = 0 := by
    decide
  have hc := h.1 h0
  exact ⟨hc, (h.2 hc).1 2⟩

/-- C3 counterexample: the claim "the classification is critical if
and only if stability is at most 25" fails at stability 0, where the
pop-up classifier of `SimplifiedJengaTower` (part_002 lines 64 to 71)
reports `stable` because of its `> 0` guard. -/
theorem critical_band_fails_at_zero :
    ¬ (currentStabilityLevel 0 = StabilityLevel.critical ↔ (0 : Nat) ≤ 25) := by
  decide

/-- C3 amended: for every stability value the pop-up classification is
critical exactly when 0 < s and s is at most 25, and unstable exactly
when s is above 25 and at most 50; the persistent indicator is shown
exactly when s is at most 50 and uses its critical caption exactly
when s is at most 25 (including s = 0). -/
theorem stability_warning_bands (s : Nat) :
    (currentStabilityLevel s = StabilityLevel.critical ↔ 0 < s ∧ s ≤ 25)
    ∧ (currentStabilityLevel s = StabilityLevel.unstable ↔ 25 < s ∧ s ≤ 50)
    ∧ (stabilityIndicatorCritical s = true ↔ s ≤ 25)
    ∧ (stabilityIndicatorShown s = true ↔ s ≤ 50) := by
  refine ⟨?_, ?_, by simp [stabilityIndicatorCritical],
          by simp [stabilityIndicatorShown]⟩ <;>
    unfold currentStabilityLevel <;>
    split_ifs with h1 h2 <;> simp_all <;> omega

/-- C4: answering a question block of a Playing session with the
block's correct index costs no stability (delta 0), removes the block,
increments `contentShownCount`, adds the tier-scaled correct-answer
award to the score, and reports `correct = true`. -/
theorem correct_answer_preserves_stability
    (s : Session) (bid : Nat) (b : Block)
    (hp : s.phase = Phase.Playing)
    (hf : findBlock s bid = some b)
    (hr : b.removed = false)
    (_hk : (catalogItem b.contentId).kind = ContentKind.question)
    (ha : s.awaiting = some bid) :
    (handleQuizAnswer s bid (catalogItem b.contentId).correctIndex).2
        = EngineResult.ok
            { correct := true
            , stabilityDelta := 0
            , pointsAwarded :=
                correctAward (catalogItem b.contentId).difficulty }
    ∧ (handleQuizAnswer s bid
          (catalogItem b.contentId).correctIndex).1.stability = s.stability
    ∧ findBlock (handleQuizAnswer s bid
          (catalogItem b.contentId).correctIndex).1 bid
        = some { b with removed := true }
    ∧ (handleQuizAnswer s bid
          (catalogItem b.contentId).correctIndex).1.contentShownCount
        = s.contentShownCount + 1
    ∧ (handleQuizAnswer s bid
          (catalogItem b.contentId).correctIndex).1.score
        = s.score + correctAward (catalogItem b.contentId).difficulty := by
  have hf' : s.blocks.find? (fun bb => bb.id == bid) = some b := hf
  simp [handleQuizAnswer, hp, hf, hr, ha, findBlock, find_markRemoved, hf']

/-- Witness for C4: in a fresh session, after clicking block 0
(layer 1, hard-tier question), submitting the correct index keeps
stability at 100 and awards the correct-hard points. -/
theorem correct_answer_preserves_stability_witness :
    (handleQuizAnswer (runCmds initializeGame [Cmd.click 0]) 0
        (catalogItem (initialBlock 0).contentId).correctIndex).2
      = EngineResult.ok
          { correct := true
          , stabilityDelta := 0
          , pointsAwarded :=
              correctAward (catalogItem (initialBlock 0).contentId).difficulty }
    ∧ (handleQuizAnswer (runCmds initializeGame [Cmd.click 0]) 0
          (catalogItem (initialBlock 0).contentId).correctIndex).1.stability
        = (runCmds initializeGame [Cmd.click 0]).stability :=
  let h := correct_answer_preserves_stability
    (runCmds initializeGame [Cmd.click 0]) 0 (initialBlock 0)
    (by decide) (by decide) (by decide) (by decide) (by decide)
  ⟨h.1, h.2.1⟩

/-- C5: answering a question block incorrectly deducts the
layer-weighted penalty from stability with the floor at zero, still
removes the block, and awards no points; the penalty of a lower layer
is strictly larger than that of any higher layer, and the penalty
arithmetic is the round-half-up of the proportional raw weight, the
deterministic floor of the raw value plus one half (the engine being a
pure function, the same answer sequence always reproduces the same
stability). -/
theorem incorrect_answer_layer_penalty
    (s : Session) (bid idx : Nat) (b : Block)
    (hp : s.phase = Phase.Playing)
    (hf : findBlock s bid = some b)
    (hr : b.removed = false)
    (_hk : (catalogItem b.contentId).kind = ContentKind.question)
    (ha : s.awaiting = some bid)
    (hwrong : idx ≠ (catalogItem b.contentId).correctIndex) :
    (handleQuizAnswer s bid idx).2
        = EngineResult.ok
            { correct := false
            , stabilityDelta := -(min s.stability (penaltyFor b.layer) : Int)
            , pointsAwarded := 0 }
    ∧ (handleQuizAnswer s bid idx).1.stability
        = s.stability - penaltyFor b.layer
    ∧ findBlock (handleQuizAnswer s bid idx).1 bid
        = some { b with removed := true }
    ∧ (handleQuizAnswer s bid idx).1.contentShownCount
        = s.contentShownCount + 1
    ∧ (∀ lower upper : Nat, 1 ≤ lower → lower < upper → upper ≤ 18 →
        penaltyFor upper < penaltyFor lower)
    ∧ (∀ num : Nat,
        12 * roundHalfUp num 6 ≤ 2 * num + 6
        ∧ 2 * num + 6 < 12 * (roundHalfUp num 6 + 1))
    ∧ penaltyFor b.layer = roundHalfUp (10 * (19 - b.layer)) 6 := by
  have hf' : s.blocks.find? (fun bb => bb.id == bid) = some b := hf
  have hbeq : (idx == (catalogItem b.contentId).correctIndex) = false := by
    simpa using hwrong
  refine ⟨?_, ?_, ?_, ?_, ?_, ?_, rfl⟩
  · simp [handleQuizAnswer, hp, hf, hr, ha, hbeq]
    try omega
  · simp [handleQuizAnswer, hp, hf, hr, ha, hbeq]
    try omega
  · simp [handleQuizAnswer, hp, hf, hr, ha, hbeq, findBlock,
          find_markRemoved, hf']
  · simp [handleQuizAnswer, hp, hf, hr, ha, hbeq]
  · intro lower upper h1 h2 h3
    unfold penaltyFor roundHalfUp
    omega
  · intro num
    unfold roundHalfUp
    omega

/-- Witness for C5: in a fresh session, after clicking block 0
(layer 1, hard tier), submitting a wrong index deducts the full
layer-1 penalty of 30, leaving stability 70. -/
theorem incorrect_answer_layer_penalty_witness :
    (handleQuizAnswer (runCmds initializeGame [Cmd.click 0]) 0 1).2
      = EngineResult.ok
          { correct := false
          , stabilityDelta :=
              -(min (runCmds initializeGame [Cmd.click 0]).stability
                    (penaltyFor (initialBlock 0).layer) : Int)
          , pointsAwarded := 0 }
    ∧ (handleQuizAnswer (runCmds initializeGame [Cmd.click 0]) 0 1).1.stability
        = (runCmds initializeGame [Cmd.click 0]).stability
            - penaltyFor (initialBlock 0).layer :=
  let h := incorrect_answer_layer_penalty
    (runCmds initializeGame [Cmd.click 0]) 0 1 (initialBlock 0)
    (by decide) (by decide) (by decide) (by decide) (by decide) (by decide)
  ⟨h.1, h.2.1⟩

/-- C6: after any resolution (a step that increments
`contentShownCount`), if the count reaches the full catalog of 54 with
stability still positive, the phase becomes Completed; and Completed
is terminal, every further play command leaving the session
untouched. -/
theorem completion_after_exhaustion (s t : Session) (c d : Cmd) :
    ((stepCmd s c).contentShownCount = s.contentShownCount + 1 →
      (stepCmd s c).contentShownCount = catalogSize →
      0 < (stepCmd s c).stability →
      (stepCmd s c).phase = Phase.Completed)
    ∧ (t.phase = Phase.Completed → isPlay d = true → stepCmd t d = t) := by
  constructor
  · cases c with
    | click bid =>
        by_cases hp : s.phase = Phase.Playing
        · unfold stepCmd handleBlockClick
          simp only [hp]
          cases hfb : findBlock s bid with
          | none => intro h1 _ _; simp at h1
          | some b =>
              simp only [hfb]
              by_cases hrb : b.removed
              · rw [if_pos hrb]; intro h1 _ _; simp at h1
              · rw [if_neg hrb]
                cases hkk : (catalogItem b.contentId).kind with
                | question => intro h1 _ _; simp at h1
                | tip =>
                    simp only [hkk]
                    intro _ h2 h3
                    unfold finishPhase
                    rw [if_neg (by omega), if_pos h2]
        · have hcl := click_fst_of_not_playing s bid hp
          dsimp only [stepCmd]
          rw [hcl]
          intro h1 _ _
          omega
    | answer bid idx =>
        by_cases hp : s.phase = Phase.Playing
        · unfold stepCmd handleQuizAnswer
          simp only [hp]
          cases hfb : findBlock s bid with
          | none => intro h1 _ _; simp at h1
          | some b =>
              simp only [hfb]
              by_cases hrb : b.removed
              · rw [if_pos hrb]; intro h1 _ _; simp at h1
              · rw [if_neg hrb]
                by_cases haw : s.awaiting = some bid
                · rw [if_pos haw]
                  dsimp only
                  intro _ h2 h3
                  unfold finishPhase
                  rw [if_neg (by omega), if_pos h2]
                · rw [if_neg haw]; intro h1 _ _; simp at h1
        · have hcl := answer_fst_of_not_playing s bid idx hp
          dsimp only [stepCmd]
          rw [hcl]
          intro h1 _ _
          omega
    | reset =>
        dsimp only [stepCmd, resetGame]
        intro h1 _ _
        simp [initializeGame] at h1
  · intro ht hd
    exact stepCmd_of_terminal t d
      (fun h => Phase.noConfusion (ht.symm.trans h)) hd

/-- Witness for C6: with 53 concepts already shown, resolving the last
tip block completes the game, and a play command on a completed
session is a no-op. -/
theorem completion_after_exhaustion_witness :
    (stepCmd { initializeGame with contentShownCount := 53 }
        (Cmd.click 53)).phase = Phase.Completed
    ∧ stepCmd { initializeGame with phase := Phase.Completed }
        (Cmd.click 0) = { initializeGame with phase := Phase.Completed } :=
  let h := completion_after_exhaustion
    { initializeGame with contentShownCount := 53 }
    { initializeGame with phase := Phase.Completed }
    (Cmd.click 53) (Cmd.click 0)
  ⟨h.1 (by decide) (by decide) (by decide), h.2 (by decide) (by decide)⟩

/-- C7: in a Playing session, a click on an unknown block id, or on an
already-removed block, yields the null-signalling error result and
returns the session completely unchanged. -/
theorem invalid_click_leaves_session (s : Session) (bid : Nat)
    (hp : s.phase = Phase.Playing) :
    (findBlock s bid = none →
      handleBlockClick s bid
        = (s, EngineResult.failure GameError.UnknownBlock))
    ∧ ∀ b, findBlock s bid = some b → b.removed = true →
        handleBlockClick s bid
          = (s, EngineResult.failure GameError.AlreadyRemoved) := by
  constructor
  · intro hn
    simp [handleBlockClick, hp, hn]
  · intro b hb hr
    simp [handleBlockClick, hp, hb, hr]

/-- Witness for C7: clicking the nonexistent block id 99 in a fresh
session returns the unchanged session with the `UnknownBlock`
sentinel. -/
theorem invalid_click_leaves_session_witness :
    handleBlockClick initializeGame 99
      = (initializeGame, EngineResult.failure GameError.UnknownBlock) :=
  (invalid_click_leaves_session initializeGame 99 (by decide)).1 (by decide)

/-- C8: from any session whatsoever, `resetGame` followed by
`getGameState` yields a brand-new session: stability 100, score 0,
no content shown, phase Playing, every block present with
`removed = false`, and no residual achievements, history or pending
answer from the previous session. -/
theorem reset_yields_fresh_session (s : Session) :
    getGameState (resetGame s) = initializeGame
    ∧ (getGameState (resetGame s)).stability = 100
    ∧ (getGameState (resetGame s)).score = 0
    ∧ (getGameState (resetGame s)).contentShownCount = 0
    ∧ (getGameState (resetGame s)).phase = Phase.Playing
    ∧ (((getGameState (resetGame s)).blocks).all
        (fun b => b.removed == false)) = true
    ∧ (getGameState (resetGame s)).achievements = []
    ∧ (getGameState (resetGame s)).history = []
    ∧ (getGameState (resetGame s)).awaiting = none :=
  ⟨rfl, rfl, rfl, rfl, rfl,
   (by show ((initializeGame.blocks).all (fun b => b.removed == false)) = true
       decide),
   rfl, rfl, rfl⟩

/-- C9: `initializeGame` produces 54 blocks in 18 layers of 3, each
block's difficulty tier determined by its layer band (1 to 6 hard,
7 to 12 medium, 13 to 18 easy), each block bound to a content item of
the tier matching that band, with no content item reused; the embedded
`getBlockColor` of the UI paints every such block with its band's
primary colour. -/
theorem block_banding_and_content :
    initializeGame.blocks.length = 54
    ∧ (initializeGame.blocks.all (fun b =>
        (1 ≤ b.layer && b.layer ≤ 18)
        && (b.difficulty ==
             (if b.layer ≤ 6 then Difficulty.hard
              else if b.layer ≤ 12 then Difficulty.medium
              else Difficulty.easy))
        && ((catalogItem b.contentId).difficulty == b.difficulty))) = true
    ∧ ((List.range 18).all (fun i =>
        ((initializeGame.blocks.filter
            (fun b => b.layer == i + 1)).length == 3))) = true
    ∧ (initializeGame.blocks.map (fun b => b.contentId)).Nodup
    ∧ (initializeGame.blocks.all (fun b =>
        getBlockColor b.layer b.difficulty ==
          (match b.difficulty with
           | Difficulty.hard => 0xdc2626
           | Difficulty.medium => 0xd97706
           | Difficulty.easy => 0x059669))) = true :=
  ⟨by decide, by decide, by decide, by decide, by decide⟩

/-- `storeOffline` keeps the offline list within the 100-event cap. -/
lemma storeOffline_length_le (events : List AnalyticsEvent)
    (e : AnalyticsEvent) (h : events.length ≤ 100) :
    (storeOffline events e).length ≤ 100 := by
  unfold storeOffline
  dsimp only
  split
  · rename_i hgt
    simp only [List.length_drop, List.length_append, List.length_cons,
               List.length_nil] at hgt ⊢
    omega
  · rename_i hle
    simp only [List.length_append, List.length_cons,
               List.length_nil] at hle ⊢
    omega

/-- Folding `storeOffline` over any event stream keeps the cap. -/
lemma foldl_storeOffline_le (es : List AnalyticsEvent) :
    ∀ acc : List AnalyticsEvent, acc.length ≤ 100 →
      (es.foldl storeOffline acc).length ≤ 100 := by
  induction es with
  | nil => exact fun acc h => h
  | cons e es ih =>
      exact fun acc h => ih _ (storeOffline_length_le acc e h)

/-- C10: after every `storeOffline` call the persisted offline list
holds at most 100 events (in particular over any event stream starting
from the empty list); when the list is full the oldest event is
discarded first, the result always being a most-recent suffix, in
order, of the pushed list. -/
theorem offline_event_bound (events : List AnalyticsEvent)
    (e : AnalyticsEvent) :
    (events.length ≤ 100 → (storeOffline events e).length ≤ 100)
    ∧ (events.length = 100 →
        storeOffline events e = events.drop 1 ++ [e])
    ∧ List.IsSuffix (storeOffline events e) (events ++ [e])
    ∧ ∀ es : List AnalyticsEvent,
        (es.foldl storeOffline []).length ≤ 100 := by
  refine ⟨storeOffline_length_le events e, ?_, ?_,
          fun es => foldl_storeOffline_le es [] (by simp)⟩
  · intro h100
    unfold storeOffline
    rw [if_pos (by simp [h100])]
    rw [List.drop_append_of_le_length (by omega)]
  · unfold storeOffline
    dsimp only
    split
    · exact List.drop_suffix 1 (events ++ [e])
    · exact List.suffix_refl _

/-- Witness for C10: storing one event into the empty offline list
stays within the cap. -/
theorem offline_event_bound_witness :
    (storeOffline []
        { category := "Game", action := "game_started"
        , label := none, value := none, timestamp := 0 }).length ≤ 100 :=
  (offline_event_bound []
    { category := "Game", action := "game_started"
    , label := none, value := none, timestamp := 0 }).1 (by decide)

end PrivacyJenga
